import Mathlib

/-
Shallow embedding of the backlog prioritization and knowledge-graph core of
the Rune writing application (src/lib/backlog.ts, src/lib/knowledge-graph.ts,
and the extraction API route), together with theorems settling the frozen
claims about its specification.

Modelling conventions:
  - TypeScript string fields become String; nullable fields become
    Option String; numbers that are counts become Nat; the priority score
    is Int (it can be negative).
  - JavaScript truthiness on a nullable string (used by the source in
    conditions such as the finish-bonus check) is modelled explicitly:
    null and the empty string are falsy, every other string is truthy.
  - The external relational store is modelled as an in-memory list of rows
    in the listing order the store returns (backlog listings come back
    ordered by stored priority descending; filters preserve that order).
    Row ids are store-generated; where a generated id is irrelevant to the
    behaviour under study it is either supplied as a parameter or omitted.
  - Union string types (item_type, status, entity type) are modelled as
    String so that out-of-enum runtime values, which the source tolerates,
    can be expressed.
-/

-- ---------------------------------------------------------------------------
-- JavaScript truthiness for nullable strings
-- ---------------------------------------------------------------------------

/-- Model of the JavaScript toLowerCase call used by the extraction route
for name normalization: lowercase every character.  Written over the
character list so that concrete instances reduce inside the kernel. -/
def toLowerCase (s : String) : String := String.mk (s.data.map Char.toLower)

/-- Truthiness of a value of TypeScript type string-or-null: null and the
empty string are falsy, all other strings truthy. -/
def truthyOptStr : Option String → Bool
  | none => false
  | some s => !(s == "")

-- ---------------------------------------------------------------------------
-- Backlog data model (src/types/database.ts, interface BacklogItem)
-- ---------------------------------------------------------------------------

/-- A backlog row as stored.  item_type and status are the string unions
BacklogItemType and BacklogStatus in the source; they are modelled as plain
strings (see conventions above). -/
structure BacklogItem where
  id : String
  book_id : String
  item_type : String
  content : String
  priority : Int
  source_session_id : Option String
  source_entity_id : Option String
  status : String
  created_at : String
  addressed_at : Option String
deriving DecidableEq, Repr

-- ---------------------------------------------------------------------------
-- Priority scorer (src/lib/backlog.ts)
-- ---------------------------------------------------------------------------

/-- Type weighting used in priority calculation.  The source is a record
keyed by the six backlog item types; an index by any other string yields
undefined, which the caller defaults to zero. -/
def TYPE_WEIGHTS (t : String) : Option Int :=
  if t = "contradiction" then some 2
  else if t = "thin_spot" then some 1
  else if t = "question" then some 0
  else if t = "review" then some 0
  else if t = "idea" then some (-1)
  else if t = "unexplored" then some (-1)
  else none

/-- calculatePriority from src/lib/backlog.ts: base priority plus age bonus
(floor of sessionCount over 3) plus type weight (defaulted to 0 for unknown
types) plus finish bonus (2 when hasDrafts and the source entity id is
truthy, else 0). -/
def calculatePriority (item : BacklogItem) (sessionCount : Nat)
    (hasDrafts : Bool) : Int :=
  let basePriority := item.priority
  let ageBonus : Int := (sessionCount / 3 : Nat)
  let typeWeight := (TYPE_WEIGHTS item.item_type).getD 0
  let finishBonus : Int :=
    if hasDrafts && truthyOptStr item.source_entity_id then 2 else 0
  basePriority + ageBonus + typeWeight + finishBonus

-- ---------------------------------------------------------------------------
-- Backlog store operations (src/lib/backlog.ts)
-- ---------------------------------------------------------------------------

/-- getBacklogItems: select the rows of a book, ordered by stored priority
descending, optionally filtered by status and by item type.  The store
argument is the list of the rows of the book in the listing order the store
returns for the unfiltered query; an equality filter preserves the relative
order of the surviving rows, so the filtered query is a List.filter. -/
def getBacklogItems (store : List BacklogItem) (status : Option String)
    (ty : Option String) : List BacklogItem :=
  store.filter fun i =>
    (match status with
     | some s => i.status == s
     | none => true)
    &&
    (match ty with
     | some t => i.item_type == t
     | none => true)

/-- The scan loop of getNextItem.  The source initialises best to null and
bestScore to negative infinity, so the first item always installs itself;
this function carries the running best item and its score after that first
installation.  An item replaces the running best exactly when its score is
strictly greater. -/
def loopBest (sessionCount : Nat) (hasDrafts : Bool) (best : BacklogItem)
    (bestScore : Int) : List BacklogItem → BacklogItem
  | [] => best
  | item :: rest =>
    if bestScore < calculatePriority item sessionCount hasDrafts then
      loopBest sessionCount hasDrafts item
        (calculatePriority item sessionCount hasDrafts) rest
    else
      loopBest sessionCount hasDrafts best bestScore rest

/-- getNextItem from src/lib/backlog.ts: fetch the open items of the book,
return none when there are none, otherwise score every open item with
calculatePriority and return the first item attaining the maximal score.
The book-wide session count and draft-presence flag are the two aggregate
store reads the source performs; they are inputs here. -/
def getNextItem (store : List BacklogItem) (sessionCount : Nat)
    (hasDrafts : Bool) : Option BacklogItem :=
  match getBacklogItems store (some "open") none with
  | [] => none
  | item :: rest =>
    some (loopBest sessionCount hasDrafts item
      (calculatePriority item sessionCount hasDrafts) rest)

/-- addressItem from src/lib/backlog.ts: an unconditional update of every
row whose id matches, setting status to addressed and stamping addressed_at
with the current time.  The now argument is the serialised current time. -/
def addressItem (now : String) (id : String)
    (store : List BacklogItem) : List BacklogItem :=
  store.map fun i =>
    if i.id = id then { i with status := "addressed", addressed_at := some now }
    else i

/-- dismissItem from src/lib/backlog.ts: same unconditional update shape as
addressItem, with status set to dismissed. -/
def dismissItem (now : String) (id : String)
    (store : List BacklogItem) : List BacklogItem :=
  store.map fun i =>
    if i.id = id then { i with status := "dismissed", addressed_at := some now }
    else i

/-- The row addBacklogItem inserts: status open, base priority 1,
addressed_at null; id and created_at are store-generated and supplied as
parameters of the model. -/
def addBacklogItemRow (newId bookId ty content : String)
    (srcSession srcEntity : Option String) (createdAt : String) : BacklogItem :=
  { id := newId
    book_id := bookId
    item_type := ty
    content := content
    priority := 1
    source_session_id := srcSession
    source_entity_id := srcEntity
    status := "open"
    created_at := createdAt
    addressed_at := none }

/-- The five core backlog operations, as store-state transformers.
getItems and getNext are reads: they issue only select queries and leave
the store unchanged. -/
inductive BacklogOp where
  | addItem (newId bookId ty content : String)
      (srcSession srcEntity : Option String) (createdAt : String)
  | getItems
  | getNext
  | address (now id : String)
  | dismiss (now id : String)

/-- Effect of one backlog operation on the store state. -/
def applyOp (store : List BacklogItem) : BacklogOp → List BacklogItem
  | .addItem newId bookId ty content ss se createdAt =>
      store ++ [addBacklogItemRow newId bookId ty content ss se createdAt]
  | .getItems => store
  | .getNext => store
  | .address now id => addressItem now id store
  | .dismiss now id => dismissItem now id store

/-- Effect of a sequence of backlog operations, applied left to right. -/
def runOps (store : List BacklogItem) (ops : List BacklogOp) : List BacklogItem :=
  ops.foldl applyOp store

-- ---------------------------------------------------------------------------
-- Knowledge graph data model (src/types/database.ts)
-- ---------------------------------------------------------------------------

/-- A knowledge-graph entity row.  The attributes json bag is modelled as an
association list of string pairs; entity_type is the string union
EntityType in the source. -/
structure KnowledgeEntity where
  id : String
  book_id : String
  entity_type : String
  name : String
  description : String
  attributes : List (String × String)
  first_mentioned_session : Option String
  mention_count : Nat
deriving DecidableEq, Repr

/-- A relationship row as inserted by addRelationship: book id, the two
endpoint entity ids, a free-text type label and a description.  The row id
is store-generated and plays no role in the behaviour under study, so it is
not modelled. -/
structure EntityRelationship where
  book_id : String
  from_entity_id : String
  to_entity_id : String
  relationship_type : String
  description : String
deriving DecidableEq, Repr

/-- An entity candidate produced by the extraction collaborator
(interface ExtractedEntity input shape in the route: name, type,
description). -/
structure EntityCandidate where
  name : String
  type : String
  description : String
deriving DecidableEq, Repr

/-- A relationship candidate produced by the extraction collaborator.  The
source json fields are from and to; from is a reserved word in Lean, so the
fields are named fromName and toName. -/
structure RelCandidate where
  fromName : String
  toName : String
  type : String
  description : String
deriving DecidableEq, Repr

/-- An element of the resultEntities response array built by the extraction
route: the canonical name, type and description that were persisted, and
whether the entity was newly created. -/
structure MergeResultEntity where
  name : String
  type : String
  description : String
  is_new : Bool
deriving DecidableEq, Repr

-- ---------------------------------------------------------------------------
-- JavaScript Map as a lookup function
-- ---------------------------------------------------------------------------

/-- Map.set: point update of a lookup function, later writes win. -/
def setKey (m : String → Option α) (k : String) (v : α) : String → Option α :=
  fun q => if q = k then some v else m q

/-- The Map constructor applied to a list of key-value pairs: entries are
inserted in order, so a later pair with the same key overwrites an earlier
one. -/
def buildLookup (l : List (String × α)) : String → Option α :=
  l.foldl (fun m kv => setKey m kv.1 kv.2) (fun _ => none)

-- ---------------------------------------------------------------------------
-- Entity store operations (src/lib/knowledge-graph.ts)
-- ---------------------------------------------------------------------------

/-- incrementMentionCount: read the current mention_count of the row with
the given id, then write it back plus one.  On the sequential in-memory
store model this is a map over the rows. -/
def incrementMentionCount (entityId : String)
    (entities : List KnowledgeEntity) : List KnowledgeEntity :=
  entities.map fun e =>
    if e.id = entityId then { e with mention_count := e.mention_count + 1 }
    else e

/-- Valid entity types accepted by the extraction route. -/
def VALID_ENTITY_TYPES : List String := ["person", "place", "theme", "event"]

-- ---------------------------------------------------------------------------
-- Extraction-merge protocol (the POST handler of the extraction route)
-- ---------------------------------------------------------------------------

/-- existingByName in the route: a map from lowercased entity name to the
entity, seeded once from the entities existing before the batch and never
updated during the batch. -/
def existingByName (existing : List KnowledgeEntity) :
    String → Option KnowledgeEntity :=
  buildLookup (existing.map fun e => (toLowerCase e.name, e))

/-- Mutable state threaded through the entity loop of the extraction route:
the entity rows of the store, the name-to-id map (seeded with existing
entities, extended with newly created ones), the response array, and a
counter supplying store-generated ids for new rows. -/
structure MergeState where
  entities : List KnowledgeEntity
  entityIdByName : String → Option String
  results : List MergeResultEntity
  nextId : Nat

/-- One iteration of the entity loop of the extraction route: skip
candidates of unknown type; otherwise look the lowercased candidate name up
in the byName map seeded from pre-batch entities.  A hit increments the
mention count of the existing entity; a miss creates a new entity row with
mention_count 1 (the store default) and records its id in the name-to-id
map. -/
def mergeEntityStep (byName : String → Option KnowledgeEntity)
    (bookId sessionId : String) (s : MergeState)
    (extracted : EntityCandidate) : MergeState :=
  if extracted.type ∈ VALID_ENTITY_TYPES then
    let normalizedName := toLowerCase extracted.name
    match byName normalizedName with
    | some existing =>
        { s with
          entities := incrementMentionCount existing.id s.entities
          entityIdByName := setKey s.entityIdByName normalizedName existing.id
          results := s.results ++
            [{ name := existing.name, type := existing.entity_type,
               description := existing.description, is_new := false }] }
    | none =>
        let newEntity : KnowledgeEntity :=
          { id := "gen" ++ toString s.nextId
            book_id := bookId
            entity_type := extracted.type
            name := extracted.name
            description := extracted.description
            attributes := []
            first_mentioned_session := some sessionId
            mention_count := 1 }
        { s with
          entities := s.entities ++ [newEntity]
          entityIdByName := setKey s.entityIdByName normalizedName newEntity.id
          results := s.results ++
            [{ name := newEntity.name, type := newEntity.entity_type,
               description := newEntity.description, is_new := true }]
          nextId := s.nextId + 1 }
  else s

/-- The entity loop of the extraction route: seed both maps from the
entities existing before the batch, then fold the step over the candidate
batch.  The store starts as exactly those existing entities. -/
def runEntityMerge (existing : List KnowledgeEntity)
    (cands : List EntityCandidate) (bookId sessionId : String) : MergeState :=
  let byName := existingByName existing
  let idMap0 := buildLookup (existing.map fun e => (toLowerCase e.name, e.id))
  cands.foldl (mergeEntityStep byName bookId sessionId)
    { entities := existing, entityIdByName := idMap0, results := [], nextId := 0 }

/-- addRelationship from src/lib/knowledge-graph.ts: insert a relationship
row; a store write failure surfaces as an error.  The storeFails flag is
the external-store failure oracle for this one call. -/
def addRelationship (bookId fromId toId ty desc : String)
    (storeFails : Bool) : Except String EntityRelationship :=
  if storeFails then .error "Failed to add relationship"
  else .ok
    { book_id := bookId
      from_entity_id := fromId
      to_entity_id := toId
      relationship_type := ty
      description := desc }

/-- The relationship loop of the extraction route: resolve both endpoint
names through the name-to-id map; when either lookup is falsy the candidate
is skipped; otherwise addRelationship is attempted and an individual
failure is caught and logged, never propagated.  The storeFails oracle
gives the outcome of the store write for the call at each loop index; the
returned list is the relationship rows actually created, in order. -/
def processRelationships (entityIdByName : String → Option String)
    (bookId : String) (storeFails : Nat → Bool) :
    Nat → List RelCandidate → List EntityRelationship
  | _, [] => []
  | i, rel :: rest =>
    let fromId := entityIdByName (toLowerCase rel.fromName)
    let toId := entityIdByName (toLowerCase rel.toName)
    if truthyOptStr fromId && truthyOptStr toId then
      match addRelationship bookId (fromId.getD "") (toId.getD "")
          rel.type rel.description (storeFails i) with
      | .ok r => r :: processRelationships entityIdByName bookId storeFails (i + 1) rest
      | .error _ => processRelationships entityIdByName bookId storeFails (i + 1) rest
    else processRelationships entityIdByName bookId storeFails (i + 1) rest

/-- The persistence effect of one whole POST of the extraction route: run
the entity loop, then run the relationship loop against the name-to-id map
the entity loop produced.  Returns the final entity-loop state and the
relationship rows created. -/
def extractionMerge (existing : List KnowledgeEntity)
    (ecands : List EntityCandidate) (rcands : List RelCandidate)
    (bookId sessionId : String) (storeFails : Nat → Bool) :
    MergeState × List EntityRelationship :=
  let s := runEntityMerge existing ecands bookId sessionId
  (s, processRelationships s.entityIdByName bookId storeFails 0 rcands)

-- ---------------------------------------------------------------------------
-- Unresolved detector (src/lib/knowledge-graph.ts, findUnresolved)
-- ---------------------------------------------------------------------------

/-- Set.add of the JavaScript Set of connected ids: append when absent. -/
def setAdd (s : List String) (x : String) : List String :=
  if s.contains x then s else s ++ [x]

/-- The connected set built by findUnresolved: every id occurring as either
endpoint of some relationship of the book. -/
def connectedIds (relationships : List EntityRelationship) : List String :=
  relationships.foldl
    (fun s r => setAdd (setAdd s r.from_entity_id) r.to_entity_id) []

/-- findUnresolved from src/lib/knowledge-graph.ts: keep the entities whose
description is falsy (empty) or trims to the empty string, or whose id is
in no relationship endpoint. -/
def findUnresolved (entities : List KnowledgeEntity)
    (relationships : List EntityRelationship) : List KnowledgeEntity :=
  let connected := connectedIds relationships
  entities.filter fun e =>
    (e.description == "") || (e.description.trim == "")
      || !(connected.contains e.id)

-- ---------------------------------------------------------------------------
-- Spec-side formula (for the refinement statement about the scorer)
-- ---------------------------------------------------------------------------

/-- The effective-score formula of section 4.4 of the spec, written from
the spec text independently of the implementation: base priority, plus
floor of the session count over 3, plus the fixed per-type weight, plus the
finish bonus.  The finish-bonus condition carries the one amendment the
code forces: the bonus requires the source entity id to be non-null AND
non-empty, because the implementation tests the field with JavaScript
truthiness and the empty string is falsy. -/
def specEffectiveScore (basePriority : Int) (itemType : String)
    (sessionCount : Nat) (hasDrafts : Bool)
    (sourceEntityId : Option String) : Int :=
  let typeWeight : Int :=
    if itemType = "contradiction" then 2
    else if itemType = "thin_spot" then 1
    else if itemType = "question" then 0
    else if itemType = "review" then 0
    else if itemType = "idea" then -1
    else if itemType = "unexplored" then -1
    else 0
  let finishBonus : Int :=
    match sourceEntityId with
    | some s => if hasDrafts ∧ s ≠ "" then 2 else 0
    | none => 0
  basePriority + (sessionCount / 3 : Nat) + typeWeight + finishBonus

-- ---------------------------------------------------------------------------
-- Concrete rows used by counterexamples and witnesses
-- ---------------------------------------------------------------------------

/-- An open question item whose source_entity_id is the empty string:
non-null, but falsy under JavaScript truthiness. -/
def emptyEntityIdItem : BacklogItem :=
  { id := "i1", book_id := "b1", item_type := "question", content := "q",
    priority := 2, source_session_id := none, source_entity_id := some "",
    status := "open", created_at := "2026-01-01", addressed_at := none }

/-- An open item carrying an item_type outside the six known types. -/
def unknownTypeItem : BacklogItem :=
  { id := "i2", book_id := "b1", item_type := "milestone", content := "m",
    priority := 3, source_session_id := none, source_entity_id := some "e9",
    status := "open", created_at := "2026-01-01", addressed_at := none }

/-- An open idea item with base priority 5 (scores 6 at session count 6). -/
def demoIdeaItem : BacklogItem :=
  { id := "idea1", book_id := "b1", item_type := "idea", content := "x",
    priority := 5, source_session_id := none, source_entity_id := none,
    status := "open", created_at := "2026-01-01", addressed_at := none }

/-- An open thin_spot item with base priority 3 (also scores 6 at session
count 6, tying demoIdeaItem). -/
def demoThinSpotItem : BacklogItem :=
  { id := "thin1", book_id := "b1", item_type := "thin_spot", content := "y",
    priority := 3, source_session_id := none, source_entity_id := none,
    status := "open", created_at := "2026-01-01", addressed_at := none }

/-- An already-addressed backlog item with a recorded addressed_at stamp. -/
def demoAddressedItem : BacklogItem :=
  { id := "done1", book_id := "b1", item_type := "review", content := "z",
    priority := 1, source_session_id := none, source_entity_id := none,
    status := "addressed", created_at := "2026-01-01",
    addressed_at := some "2026-02-01" }

/-- An existing entity with a non-empty description, an attribute and
mention count 3. -/
def mariaEntity : KnowledgeEntity :=
  { id := "e1", book_id := "b1", entity_type := "person", name := "Maria",
    description := "an old friend", attributes := [("role", "friend")],
    first_mentioned_session := some "s0", mention_count := 3 }

-- ---------------------------------------------------------------------------
-- Theorems
-- ---------------------------------------------------------------------------

/-- C1 counterexample.  The claim asserts the finish bonus is +2 exactly
when has_drafts holds and source_entity_id is non-null; on the item whose
source_entity_id is the empty string (non-null) with drafts present and
session count 0 the claim therefore predicts 2 + 0 + 0 + 2 = 4, but the
implementation tests the field with JavaScript truthiness and returns 2. -/
theorem calculatePriority_nonnull_claim_false :
    emptyEntityIdItem.source_entity_id ≠ none ∧
    calculatePriority emptyEntityIdItem 0 true ≠ 2 + 0 + 0 + 2 ∧
    calculatePriority emptyEntityIdItem 0 true = 2 := by
  refine ⟨by simp [emptyEntityIdItem], by decide, by decide⟩

/-- C1, amended.  For every backlog item, calculatePriority returns exactly
base_priority + floor(session_count / 3) + type_weight + finish_bonus,
with the type weights of the claim, where finish_bonus is +2 if and only
if has_drafts is true and source_entity_id is non-null and non-empty
(JavaScript truthiness); the result is an unclamped integer. -/
theorem calculatePriority_matches_spec_formula :
    ∀ (item : BacklogItem) (sc : Nat) (hd : Bool),
      calculatePriority item sc hd =
        specEffectiveScore item.priority item.item_type sc hd
          item.source_entity_id := by
  intro item sc hd
  unfold calculatePriority specEffectiveScore TYPE_WEIGHTS truthyOptStr
  rcases item.source_entity_id with _ | s <;> rcases hd with _ | _ <;>
    simp <;> split_ifs <;> simp_all

/-- C9.  Holding the item and the drafts flag fixed, raising the session
count by exactly 3 raises the score by exactly 1; and holding everything
else fixed, moving the item type from idea to contradiction raises the
score by exactly 3. -/
theorem calculatePriority_monotonicity :
    (∀ (item : BacklogItem) (sc : Nat) (hd : Bool),
        calculatePriority item (sc + 3) hd = calculatePriority item sc hd + 1) ∧
    (∀ (item : BacklogItem) (sc : Nat) (hd : Bool),
        calculatePriority { item with item_type := "contradiction" } sc hd =
          calculatePriority { item with item_type := "idea" } sc hd + 3) := by
  constructor
  · intro item sc hd
    unfold calculatePriority
    have h3 : (sc + 3) / 3 = sc / 3 + 1 := Nat.add_div_right sc (by omega)
    simp [h3]
    ring
  · intro item sc hd
    unfold calculatePriority TYPE_WEIGHTS
    simp
    ring

/-- C10.  An item whose item_type is outside the six known types does not
make calculatePriority fail: the type-weight lookup is undefined and the
source defaults it to 0, so the score is base priority plus age bonus plus
finish bonus. -/
theorem calculatePriority_unknown_type (item : BacklogItem) (sc : Nat)
    (hd : Bool)
    (h : item.item_type ∉
      ["question", "contradiction", "thin_spot", "unexplored", "review", "idea"]) :
    calculatePriority item sc hd =
      item.priority + ((sc / 3 : Nat) : Int) +
        (if hd && truthyOptStr item.source_entity_id then 2 else 0) := by
  simp only [List.mem_cons, List.not_mem_nil, or_false, not_or] at h
  obtain ⟨h1, h2, h3, h4, h5, h6⟩ := h
  unfold calculatePriority TYPE_WEIGHTS
  simp [h1, h2, h3, h4, h5, h6]

/-- Helper for the selector: starting from a running best b with its true
score, the scan loop returns the first element of b :: l attaining the
maximal score of b :: l.  The returned decomposition isolates the chosen
item, with everything before it scoring strictly lower and the whole list
scoring no higher. -/
theorem loopBest_first_max (sc : Nat) (hd : Bool) :
    ∀ (l : List BacklogItem) (b : BacklogItem),
      ∃ pre post,
        b :: l = pre ++ loopBest sc hd b (calculatePriority b sc hd) l :: post ∧
        (∀ j ∈ pre, calculatePriority j sc hd <
          calculatePriority (loopBest sc hd b (calculatePriority b sc hd) l) sc hd) ∧
        (∀ j ∈ b :: l, calculatePriority j sc hd ≤
          calculatePriority (loopBest sc hd b (calculatePriority b sc hd) l) sc hd) := by
  intro l
  induction l with
  | nil =>
    intro b
    exact ⟨[], [], rfl, by simp, by simp [loopBest]⟩
  | cons x xs ih =>
    intro b
    by_cases hbx : calculatePriority b sc hd < calculatePriority x sc hd
    · have hstep : loopBest sc hd b (calculatePriority b sc hd) (x :: xs)
          = loopBest sc hd x (calculatePriority x sc hd) xs := by
        simp [loopBest, hbx]
      rw [hstep]
      obtain ⟨pre, post, hsplit, hpre, hall⟩ := ih x
      refine ⟨b :: pre, post, by rw [List.cons_append, ← hsplit], ?_, ?_⟩
      · intro j hj
        rcases List.mem_cons.mp hj with hj | hj
        · subst hj
          exact lt_of_lt_of_le hbx (hall x (List.mem_cons_self x xs))
        · exact hpre j hj
      · intro j hj
        rcases List.mem_cons.mp hj with hj | hj
        · subst hj
          exact le_of_lt (lt_of_lt_of_le hbx (hall x (List.mem_cons_self x xs)))
        · exact hall j hj
    · have hstep : loopBest sc hd b (calculatePriority b sc hd) (x :: xs)
          = loopBest sc hd b (calculatePriority b sc hd) xs := by
        simp [loopBest, hbx]
      rw [hstep]
      set r := loopBest sc hd b (calculatePriority b sc hd) xs with hr
      obtain ⟨pre, post, hsplit, hpre, hall⟩ := ih b
      rw [← hr] at hsplit hpre hall
      have hbr : calculatePriority b sc hd ≤ calculatePriority r sc hd :=
        hall b (List.mem_cons_self b xs)
      have hxr : calculatePriority x sc hd ≤ calculatePriority r sc hd :=
        le_trans (le_of_not_lt hbx) hbr
      cases pre with
      | nil =>
        simp only [List.nil_append] at hsplit
        obtain ⟨hb, hpost⟩ := List.cons.inj hsplit
        refine ⟨[], x :: xs, ?_, by simp, ?_⟩
        · rw [List.nil_append, ← hb]
        · intro j hj
          rcases List.mem_cons.mp hj with hj | hj
          · subst hj
            exact hbr
          · rcases List.mem_cons.mp hj with hj | hj
            · subst hj
              exact hxr
            · exact hall j (List.mem_cons_of_mem b hj)
      | cons p pre2 =>
        rw [List.cons_append] at hsplit
        obtain ⟨hp, hxs⟩ := List.cons.inj hsplit
        have hblt : calculatePriority b sc hd < calculatePriority r sc hd := by
          rw [hp]
          exact hpre p (List.mem_cons_self p pre2)
        refine ⟨b :: x :: pre2, post, ?_, ?_, ?_⟩
        · rw [hxs]
          simp
        · intro j hj
          rcases List.mem_cons.mp hj with hj | hj
          · subst hj
            exact hblt
          · rcases List.mem_cons.mp hj with hj | hj
            · subst hj
              exact lt_of_le_of_lt (le_of_not_lt hbx) hblt
            · exact hpre j (List.mem_cons_of_mem p hj)
        · intro j hj
          rcases List.mem_cons.mp hj with hj | hj
          · subst hj
            exact hbr
          · rcases List.mem_cons.mp hj with hj | hj
            · subst hj
              exact hxr
            · exact hall j (List.mem_cons_of_mem b hj)

/-- C2.  getNextItem returns none exactly when the book has no open
backlog items; otherwise it returns the first item of the open listing
attaining the maximal effective score, so equal scores are broken in
favour of the item appearing first in the store listing order.
Determinism across calls is immediate: the embedding is a pure function of
the store state, the session count and the drafts flag. -/
theorem getNextItem_spec (store : List BacklogItem) (sc : Nat) (hd : Bool) :
    (getNextItem store sc hd = none ↔
      getBacklogItems store (some "open") none = []) ∧
    (∀ it, getNextItem store sc hd = some it →
      ∃ pre post,
        getBacklogItems store (some "open") none = pre ++ it :: post ∧
        (∀ j ∈ pre, calculatePriority j sc hd < calculatePriority it sc hd) ∧
        (∀ j ∈ getBacklogItems store (some "open") none,
          calculatePriority j sc hd ≤ calculatePriority it sc hd)) := by
  unfold getNextItem
  cases hOpen : getBacklogItems store (some "open") none with
  | nil => simp
  | cons x xs =>
    constructor
    · simp
    · intro it hit
      simp only [Option.some.injEq] at hit
      subst hit
      obtain ⟨pre, post, hsplit, hpre, hall⟩ := loopBest_first_max sc hd xs x
      exact ⟨pre, post, hsplit, hpre, fun j hj => hall j hj⟩

/-- C2 witness: a store whose two open items tie at score 6 under session
count 6; the selector picks the first-listed of the two. -/
theorem getNextItem_spec_witness :
    ∃ pre post,
      getBacklogItems [demoIdeaItem, demoThinSpotItem] (some "open") none =
        pre ++ demoIdeaItem :: post ∧
      (∀ j ∈ pre, calculatePriority j 6 false <
        calculatePriority demoIdeaItem 6 false) ∧
      (∀ j ∈ getBacklogItems [demoIdeaItem, demoThinSpotItem] (some "open") none,
        calculatePriority j 6 false ≤ calculatePriority demoIdeaItem 6 false) :=
  (getNextItem_spec [demoIdeaItem, demoThinSpotItem] 6 false).2 demoIdeaItem
    (by decide)

/-- C6 counterexample.  The claim asserts that addressItem and dismissItem
are no-ops on an already-terminal item, leaving status and addressed_at
unchanged.  On an item already addressed with stamp 2026-02-01, dismissItem
flips the status to dismissed, and addressItem restamps addressed_at with
the new current time; neither fields is left unchanged. -/
theorem terminal_noop_claim_false :
    demoAddressedItem.status = "addressed" ∧
    demoAddressedItem.addressed_at = some "2026-02-01" ∧
    (dismissItem "2026-03-01" "done1" [demoAddressedItem]).map
        (fun i => (i.status, i.addressed_at)) =
      [("dismissed", some "2026-03-01")] ∧
    (addressItem "2026-03-01" "done1" [demoAddressedItem]).map
        (fun i => (i.status, i.addressed_at)) =
      [("addressed", some "2026-03-01")] := by
  decide

/-- C6, amended.  Calling addressItem or dismissItem on an item whose
status is already terminal is not a no-op: the update is applied
unconditionally, setting status to addressed respectively dismissed and
restamping addressed_at with the current time.  The theorem holds for
every matching item, terminal or not, and in particular for the
already-terminal ones the claim is about. -/
theorem addressItem_dismissItem_restamp (store : List BacklogItem)
    (now id : String) (i : BacklogItem) (hmem : i ∈ store) (hid : i.id = id) :
    ({ i with status := "addressed", addressed_at := some now } ∈
        addressItem now id store) ∧
    ({ i with status := "dismissed", addressed_at := some now } ∈
        dismissItem now id store) := by
  constructor
  · unfold addressItem
    exact List.mem_map.mpr ⟨i, hmem, by rw [if_pos hid]⟩
  · unfold dismissItem
    exact List.mem_map.mpr ⟨i, hmem, by rw [if_pos hid]⟩

/-- C6 witness: the restamp theorem applied to the concrete
already-addressed row. -/
theorem addressItem_dismissItem_restamp_witness :
    ({ demoAddressedItem with
        status := "addressed", addressed_at := some "2026-03-01" } ∈
      addressItem "2026-03-01" "done1" [demoAddressedItem]) ∧
    ({ demoAddressedItem with
        status := "dismissed", addressed_at := some "2026-03-01" } ∈
      dismissItem "2026-03-01" "done1" [demoAddressedItem]) :=
  addressItem_dismissItem_restamp [demoAddressedItem] "2026-03-01" "done1"
    demoAddressedItem (by decide) (by decide)

/-- Helper for the terminality invariant: a single core operation maps the
row at any position to a row with the same id whose status is still
terminal whenever it was terminal before. -/
theorem applyOp_preserves_terminal (op : BacklogOp) (store : List BacklogItem)
    (n : Nat) (i : BacklogItem) (h : store[n]? = some i)
    (ht : i.status = "addressed" ∨ i.status = "dismissed") :
    ∃ i2, (applyOp store op)[n]? = some i2 ∧ i2.id = i.id ∧
      (i2.status = "addressed" ∨ i2.status = "dismissed") := by
  cases op with
  | addItem newId bookId ty content ss se createdAt =>
    have hn : n < store.length := by
      rcases List.getElem?_eq_some_iff.mp h with ⟨hn, _⟩
      exact hn
    refine ⟨i, ?_, rfl, ht⟩
    rw [applyOp, List.getElem?_append_left hn]
    exact h
  | getItems => exact ⟨i, h, rfl, ht⟩
  | getNext => exact ⟨i, h, rfl, ht⟩
  | address now id =>
    refine ⟨if i.id = id
        then { i with status := "addressed", addressed_at := some now }
        else i, ?_, ?_, ?_⟩
    · rw [applyOp]
      unfold addressItem
      rw [List.getElem?_map, h]
      rfl
    · split_ifs <;> rfl
    · split_ifs
      · exact Or.inl rfl
      · exact ht
  | dismiss now id =>
    refine ⟨if i.id = id
        then { i with status := "dismissed", addressed_at := some now }
        else i, ?_, ?_, ?_⟩
    · rw [applyOp]
      unfold dismissItem
      rw [List.getElem?_map, h]
      rfl
    · split_ifs <;> rfl
    · split_ifs
      · exact Or.inr rfl
      · exact ht

/-- C7.  Once a backlog row has terminal status, no sequence of the five
core operations (addBacklogItem, getBacklogItems, getNextItem, addressItem,
dismissItem) ever transitions it back to open: the row at the same position
keeps its id, keeps a terminal status, and its status is never the string
open. -/
theorem status_terminality (store : List BacklogItem) (ops : List BacklogOp)
    (n : Nat) (i : BacklogItem) (h : store[n]? = some i)
    (ht : i.status = "addressed" ∨ i.status = "dismissed") :
    ∃ i2, (runOps store ops)[n]? = some i2 ∧ i2.id = i.id ∧
      (i2.status = "addressed" ∨ i2.status = "dismissed") ∧
      i2.status ≠ "open" := by
  have notOpen : ∀ s : String,
      (s = "addressed" ∨ s = "dismissed") → s ≠ "open" := by
    rintro s (rfl | rfl) <;> decide
  induction ops generalizing store i with
  | nil => exact ⟨i, h, rfl, ht, notOpen i.status ht⟩
  | cons op ops ih =>
    obtain ⟨i1, h1, hid1, ht1⟩ := applyOp_preserves_terminal op store n i h ht
    obtain ⟨i2, h2, hid2, ht2, hopen2⟩ := ih (applyOp store op) i1 h1 ht1
    exact ⟨i2, h2, hid2.trans hid1, ht2, hopen2⟩

/-- C7 witness: the invariant applied to a concrete addressed row under a
concrete operation sequence that attempts a further dismissal and appends a
new item. -/
theorem status_terminality_witness :
    ∃ i2, (runOps [demoAddressedItem]
        [BacklogOp.dismiss "2026-03-01" "done1",
         BacklogOp.addItem "new1" "b1" "question" "q" none none "2026-03-02",
         BacklogOp.getNext])[0]? = some i2 ∧
      i2.id = demoAddressedItem.id ∧
      (i2.status = "addressed" ∨ i2.status = "dismissed") ∧
      i2.status ≠ "open" :=
  status_terminality [demoAddressedItem]
    [BacklogOp.dismiss "2026-03-01" "done1",
     BacklogOp.addItem "new1" "b1" "question" "q" none none "2026-03-02",
     BacklogOp.getNext]
    0 demoAddressedItem (by decide) (by decide)

/-- Helper: membership in the Set.add model. -/
theorem mem_setAdd {s : List String} {x y : String} :
    y ∈ setAdd s x ↔ y ∈ s ∨ y = x := by
  unfold setAdd
  split_ifs with h
  · constructor
    · exact Or.inl
    · rintro (hy | rfl)
      · exact hy
      · exact List.mem_of_elem_eq_true h
  · simp [List.mem_append]

/-- Helper: an id is in the connected set exactly when some relationship
has it as an endpoint. -/
theorem mem_connectedIds (relationships : List EntityRelationship)
    (x : String) :
    x ∈ connectedIds relationships ↔
      ∃ r ∈ relationships,
        r.from_entity_id = x ∨ r.to_entity_id = x := by
  have key : ∀ (rels : List EntityRelationship) (acc : List String),
      x ∈ rels.foldl
          (fun s r => setAdd (setAdd s r.from_entity_id) r.to_entity_id) acc ↔
        x ∈ acc ∨ ∃ r ∈ rels,
          r.from_entity_id = x ∨ r.to_entity_id = x := by
    intro rels
    induction rels with
    | nil => simp
    | cons r rs ih =>
      intro acc
      rw [List.foldl_cons, ih, mem_setAdd, mem_setAdd]
      constructor
      · rintro (((hx | hx) | hx) | ⟨r2, hr2, hx⟩)
        · exact Or.inl hx
        · exact Or.inr ⟨r, List.mem_cons_self r rs, Or.inl hx.symm⟩
        · exact Or.inr ⟨r, List.mem_cons_self r rs, Or.inr hx.symm⟩
        · exact Or.inr ⟨r2, List.mem_cons_of_mem r hr2, hx⟩
      · rintro (hx | ⟨r2, hr2, hx⟩)
        · exact Or.inl (Or.inl (Or.inl hx))
        · rcases List.mem_cons.mp hr2 with rfl | hr2
          · rcases hx with hx | hx
            · exact Or.inl (Or.inl (Or.inr hx.symm))
            · exact Or.inl (Or.inr hx.symm)
          · exact Or.inr ⟨r2, hr2, hx⟩
  rw [connectedIds, key]
  simp

/-- C4.  An entity of the book appears in the findUnresolved output exactly
when its description is empty or blank, or no relationship of the book has
it as either endpoint; the two conditions are a union, so an entity with a
non-blank description and zero relationships qualifies. -/
theorem findUnresolved_iff (entities : List KnowledgeEntity)
    (relationships : List EntityRelationship) (e : KnowledgeEntity)
    (hmem : e ∈ entities) :
    e ∈ findUnresolved entities relationships ↔
      (e.description = "" ∨ e.description.trim = "") ∨
        ∀ r ∈ relationships,
          r.from_entity_id ≠ e.id ∧ r.to_entity_id ≠ e.id := by
  unfold findUnresolved
  rw [List.mem_filter]
  simp only [hmem, true_and, Bool.or_eq_true, Bool.not_eq_true',
    beq_iff_eq]
  have hcontains : (connectedIds relationships).contains e.id = false ↔
      e.id ∉ connectedIds relationships := by
    rw [← Bool.not_eq_true]
    simp [List.contains_iff_exists_mem_beq]
  rw [hcontains, mem_connectedIds]
  push_neg
  tauto

/-- C4 witness: an entity with a non-blank description and zero
relationships qualifies as unresolved. -/
theorem findUnresolved_iff_witness :
    mariaEntity ∈ findUnresolved [mariaEntity] [] ↔
      (mariaEntity.description = "" ∨ mariaEntity.description.trim = "") ∨
        ∀ r ∈ ([] : List EntityRelationship),
          r.from_entity_id ≠ mariaEntity.id ∧
            r.to_entity_id ≠ mariaEntity.id :=
  findUnresolved_iff [mariaEntity] [] mariaEntity (by decide)

/-- Helper: a key absent from the remaining pairs leaves the accumulated
lookup unchanged at that key. -/
theorem foldl_setKey_absent {α : Type} :
    ∀ (l : List (String × α)) (m : String → Option α) (k : String),
      (∀ v, (k, v) ∉ l) →
      l.foldl (fun m2 kv => setKey m2 kv.1 kv.2) m k = m k := by
  intro l
  induction l with
  | nil => intro m k _; rfl
  | cons kv l ih =>
    intro m k hk
    rw [List.foldl_cons, ih _ k (fun v hv => hk v (List.mem_cons_of_mem kv hv))]
    unfold setKey
    have hne : k ≠ kv.1 := by
      intro he
      exact hk kv.2 (by rw [he]; exact List.mem_cons_self kv l)
    rw [if_neg hne]

/-- Helper: a key present among the pairs resolves, and resolves to a value
paired with that key. -/
theorem foldl_setKey_present {α : Type} :
    ∀ (l : List (String × α)) (m : String → Option α) (k : String) (v : α),
      (k, v) ∈ l →
      ∃ v2, l.foldl (fun m2 kv => setKey m2 kv.1 kv.2) m k = some v2 ∧
        (k, v2) ∈ l := by
  intro l
  induction l with
  | nil => intro m k v h; exact absurd h (List.not_mem_nil _)
  | cons kv l ih =>
    intro m k v h
    by_cases hl : ∃ w, (k, w) ∈ l
    · obtain ⟨w, hw⟩ := hl
      obtain ⟨v2, hv2, hv2mem⟩ := ih (setKey m kv.1 kv.2) k w hw
      exact ⟨v2, by rw [List.foldl_cons]; exact hv2,
        List.mem_cons_of_mem kv hv2mem⟩
    · push_neg at hl
      rcases List.mem_cons.mp h with heq | hmem
      · have hk : k = kv.1 := by rw [← heq]
        refine ⟨kv.2, ?_, ?_⟩
        · rw [List.foldl_cons, foldl_setKey_absent l _ k hl]
          unfold setKey
          rw [if_pos hk]
        · rw [hk]
          exact List.mem_cons_self kv l
      · exact absurd hmem (hl v)

/-- Helper: an entity present in the store resolves through the
case-insensitive byName map to some entity of the store carrying the same
lowercased name. -/
theorem existingByName_mem (existing : List KnowledgeEntity)
    (e : KnowledgeEntity) (he : e ∈ existing) :
    ∃ e2, existingByName existing (toLowerCase e.name) = some e2 ∧
      e2 ∈ existing ∧ toLowerCase e2.name = toLowerCase e.name := by
  have hmem : (toLowerCase e.name, e) ∈
      existing.map (fun x => (toLowerCase x.name, x)) :=
    List.mem_map.mpr ⟨e, he, rfl⟩
  obtain ⟨e2, hl, hmem2⟩ :=
    foldl_setKey_present (existing.map fun x => (toLowerCase x.name, x))
      (fun _ => none) (toLowerCase e.name) e hmem
  obtain ⟨x, hx, hxeq⟩ := List.mem_map.mp hmem2
  obtain ⟨hxname, hxe⟩ := Prod.mk.injEq .. ▸ hxeq
  refine ⟨e2, hl, ?_, ?_⟩
  · rw [← hxe]
    exact hx
  · rw [← hxe, hxname]

/-- Helper: the entity loop body on a valid candidate whose lowercased name
hits the byName map takes exactly the re-mention branch: it increments the
mention count of the hit entity, records its id, and reports it as not
new. -/
theorem mergeEntityStep_hit (byName : String → Option KnowledgeEntity)
    (bookId sessionId : String) (s : MergeState) (c : EntityCandidate)
    (e : KnowledgeEntity) (hv : c.type ∈ VALID_ENTITY_TYPES)
    (hl : byName (toLowerCase c.name) = some e) :
    mergeEntityStep byName bookId sessionId s c =
      { s with
        entities := incrementMentionCount e.id s.entities
        entityIdByName := setKey s.entityIdByName (toLowerCase c.name) e.id
        results := s.results ++
          [{ name := e.name, type := e.entity_type,
             description := e.description, is_new := false }] } := by
  unfold mergeEntityStep
  rw [if_pos hv]
  simp only [hl]

/-- C3 counterexample.  The claim asserts that a candidate differing from a
stored entity only by whitespace normalization merges into it.  With the
stored entity Maria (mention count 3) and the candidate name Maria followed
by a space, the route lowercases but never trims, the lookup misses, and a
second entity row is created while the stored mention count stays 3. -/
theorem merge_whitespace_claim_false :
    ((runEntityMerge [mariaEntity]
        [{ name := "Maria ", type := "person", description := "x" }]
        "b1" "s1").entities.map
      (fun x => (x.name, x.mention_count))) =
      [("Maria", 3), ("Maria ", 1)] := by
  rfl

/-- C3, amended.  For every entity in the store and every batch candidate
of valid type whose name differs from that entity only by letter case
(identical after lowercasing; whitespace must match exactly), the merge
step creates no new entity: the store keeps its length and is updated by
exactly one mention-count increment of a stored entity with that lowercased
name. -/
theorem merge_case_insensitive_dedup (existing : List KnowledgeEntity)
    (bookId sessionId : String) (s : MergeState) (c : EntityCandidate)
    (e : KnowledgeEntity) (he : e ∈ existing)
    (hv : c.type ∈ VALID_ENTITY_TYPES)
    (hname : toLowerCase c.name = toLowerCase e.name) :
    ∃ e2, e2 ∈ existing ∧ toLowerCase e2.name = toLowerCase c.name ∧
      (mergeEntityStep (existingByName existing) bookId sessionId s c).entities.length
        = s.entities.length ∧
      (mergeEntityStep (existingByName existing) bookId sessionId s c).entities
        = incrementMentionCount e2.id s.entities := by
  obtain ⟨e2, hl, he2mem, he2name⟩ := existingByName_mem existing e he
  rw [← hname] at hl
  rw [mergeEntityStep_hit (existingByName existing) bookId sessionId s c e2 hv hl]
  exact ⟨e2, he2mem, by rw [he2name, hname], by
    simp [incrementMentionCount], rfl⟩

/-- C3 witness: a candidate differing from the stored Maria only by case
merges into it, leaving one store row. -/
theorem merge_case_insensitive_dedup_witness :
    ∃ e2, e2 ∈ [mariaEntity] ∧
      toLowerCase e2.name =
        toLowerCase (EntityCandidate.mk "MARIA" "person" "d").name ∧
      (mergeEntityStep (existingByName [mariaEntity]) "b1" "s1"
          { entities := [mariaEntity], entityIdByName := fun _ => none,
            results := [], nextId := 0 }
          (EntityCandidate.mk "MARIA" "person" "d")).entities.length
        = ({ entities := [mariaEntity], entityIdByName := fun _ => none,
             results := [], nextId := 0 } : MergeState).entities.length ∧
      (mergeEntityStep (existingByName [mariaEntity]) "b1" "s1"
          { entities := [mariaEntity], entityIdByName := fun _ => none,
            results := [], nextId := 0 }
          (EntityCandidate.mk "MARIA" "person" "d")).entities
        = incrementMentionCount e2.id [mariaEntity] :=
  merge_case_insensitive_dedup [mariaEntity] "b1" "s1"
    { entities := [mariaEntity], entityIdByName := fun _ => none,
      results := [], nextId := 0 }
    (EntityCandidate.mk "MARIA" "person" "d") mariaEntity
    (by decide) (by decide) (by decide)

/-- C8 counterexample.  The claim asserts that a subsequent mention refines
the stored description and merges attributes.  Re-mentioning Maria with the
fresh candidate description leaves the stored description and attributes
untouched; only the mention count moves from 3 to 4. -/
theorem remention_refine_claim_false :
    ((runEntityMerge [mariaEntity]
        [{ name := "MARIA", type := "person",
           description := "a fresh description" }]
        "b1" "s1").entities.map
      (fun x => (x.description, x.attributes, x.mention_count))) =
      [("an old friend", [("role", "friend")], 4)] := by
  rfl

/-- C8, amended.  On every subsequent mention of an already-known entity
through the extraction-merge protocol, the only mutation of the store is
the mention-count increment of that entity: every row keeps its name, type,
description and attributes, and the re-mentioned row gains exactly one
mention; the response reports the stored (unrefined) description with
is_new false. -/
theorem remention_only_increments (byName : String → Option KnowledgeEntity)
    (bookId sessionId : String) (s : MergeState) (c : EntityCandidate)
    (e : KnowledgeEntity) (hv : c.type ∈ VALID_ENTITY_TYPES)
    (hl : byName (toLowerCase c.name) = some e) :
    (mergeEntityStep byName bookId sessionId s c).entities =
      s.entities.map (fun x =>
        if x.id = e.id then { x with mention_count := x.mention_count + 1 }
        else x) ∧
    (mergeEntityStep byName bookId sessionId s c).results =
      s.results ++
        [{ name := e.name, type := e.entity_type,
           description := e.description, is_new := false }] := by
  rw [mergeEntityStep_hit byName bookId sessionId s c e hv hl]
  exact ⟨rfl, rfl⟩

/-- C8 witness: the re-mention theorem applied to the stored Maria and a
case-variant candidate. -/
theorem remention_only_increments_witness :
    (mergeEntityStep (existingByName [mariaEntity]) "b1" "s1"
        { entities := [mariaEntity], entityIdByName := fun _ => none,
          results := [], nextId := 0 }
        (EntityCandidate.mk "MARIA" "person" "a fresh description")).entities =
      [mariaEntity].map (fun x =>
        if x.id = mariaEntity.id
        then { x with mention_count := x.mention_count + 1 }
        else x) ∧
    (mergeEntityStep (existingByName [mariaEntity]) "b1" "s1"
        { entities := [mariaEntity], entityIdByName := fun _ => none,
          results := [], nextId := 0 }
        (EntityCandidate.mk "MARIA" "person" "a fresh description")).results =
      [] ++
        [{ name := mariaEntity.name, type := mariaEntity.entity_type,
           description := mariaEntity.description, is_new := false }] :=
  remention_only_increments (existingByName [mariaEntity]) "b1" "s1"
    { entities := [mariaEntity], entityIdByName := fun _ => none,
      results := [], nextId := 0 }
    (EntityCandidate.mk "MARIA" "person" "a fresh description") mariaEntity
    (by decide) (by decide)

/-- Helper: the oracle shift that deletes the index k from a failure
oracle, used to compare a batch with one candidate removed. -/
def shiftFails (f : Nat → Bool) (k : Nat) : Nat → Bool :=
  fun n => if n < k then f n else f (n + 1)

/-- Helper: one unfolding of the relationship loop in closed form. -/
theorem processRelationships_cons_eq (idMap : String → Option String)
    (bookId : String) (f : Nat → Bool) (i : Nat) (rel : RelCandidate)
    (rest : List RelCandidate) :
    processRelationships idMap bookId f i (rel :: rest) =
      if truthyOptStr (idMap (toLowerCase rel.fromName)) &&
          truthyOptStr (idMap (toLowerCase rel.toName)) then
        (if f i then processRelationships idMap bookId f (i + 1) rest
         else
           { book_id := bookId
             from_entity_id := (idMap (toLowerCase rel.fromName)).getD ""
             to_entity_id := (idMap (toLowerCase rel.toName)).getD ""
             relationship_type := rel.type
             description := rel.description } ::
             processRelationships idMap bookId f (i + 1) rest)
      else processRelationships idMap bookId f (i + 1) rest := by
  by_cases hc : (truthyOptStr (idMap (toLowerCase rel.fromName)) &&
      truthyOptStr (idMap (toLowerCase rel.toName))) = true
  · by_cases hf : f i = true
    · simp [processRelationships, addRelationship, hc, hf]
    · simp only [Bool.not_eq_true] at hf
      simp [processRelationships, addRelationship, hc, hf]
  · simp only [Bool.not_eq_true] at hc
    simp [processRelationships, hc]

/-- Helper: the loop output depends on the failure oracle only through the
indices the loop actually consults. -/
theorem processRelationships_congr (idMap : String → Option String)
    (bookId : String) :
    ∀ (cands : List RelCandidate) (f g : Nat → Bool) (i j : Nat),
      (∀ m, m < cands.length → f (i + m) = g (j + m)) →
      processRelationships idMap bookId f i cands =
        processRelationships idMap bookId g j cands := by
  intro cands
  induction cands with
  | nil => intro f g i j _; rfl
  | cons rel rest ih =>
    intro f g i j h
    have h0 : f i = g j := by simpa using h 0 (by simp)
    have hrest : ∀ m, m < rest.length → f (i + 1 + m) = g (j + 1 + m) := by
      intro m hm
      have hmem := h (m + 1) (by simp only [List.length_cons]; omega)
      have e1 : i + (m + 1) = i + 1 + m := by omega
      have e2 : j + (m + 1) = j + 1 + m := by omega
      rw [e1, e2] at hmem
      exact hmem
    rw [processRelationships_cons_eq, processRelationships_cons_eq, h0,
      ih f g (i + 1) (j + 1) hrest]

/-- Helper: a candidate that is skipped (unresolved endpoint) or whose
store write fails contributes nothing: the loop output on the batch equals
the output on the batch with that candidate removed, under the failure
oracle with its index deleted. -/
theorem processRelationships_remove (idMap : String → Option String)
    (bookId : String) :
    ∀ (pre : List RelCandidate) (rel : RelCandidate)
      (post : List RelCandidate) (f : Nat → Bool) (i : Nat),
      (¬(truthyOptStr (idMap (toLowerCase rel.fromName)) = true ∧
           truthyOptStr (idMap (toLowerCase rel.toName)) = true) ∨
        f (i + pre.length) = true) →
      processRelationships idMap bookId f i (pre ++ rel :: post) =
        processRelationships idMap bookId (shiftFails f (i + pre.length)) i
          (pre ++ post) := by
  intro pre
  induction pre with
  | nil =>
    intro rel post f i h
    simp only [List.length_nil, Nat.add_zero, List.nil_append] at h ⊢
    have hstep : processRelationships idMap bookId f i (rel :: post) =
        processRelationships idMap bookId f (i + 1) post := by
      rw [processRelationships_cons_eq]
      by_cases hc : (truthyOptStr (idMap (toLowerCase rel.fromName)) &&
          truthyOptStr (idMap (toLowerCase rel.toName))) = true
      · have hf : f i = true := by
          rcases h with h | h
          · rcases Bool.and_eq_true .. |>.mp hc with ⟨h1, h2⟩
            exact absurd ⟨h1, h2⟩ h
          · exact h
        rw [hc, if_pos rfl, if_pos hf]
      · simp only [Bool.not_eq_true] at hc
        rw [hc, if_neg (by simp)]
    rw [hstep]
    apply processRelationships_congr
    intro m hm
    unfold shiftFails
    rw [if_neg (by omega)]
    congr 1
    omega
  | cons p pre2 ih =>
    intro rel post f i h
    rw [List.cons_append, List.cons_append,
      processRelationships_cons_eq, processRelationships_cons_eq]
    have hlen : i + (p :: pre2).length = i + 1 + pre2.length := by
      simp only [List.length_cons]
      omega
    have hshift_i : shiftFails f (i + (p :: pre2).length) i = f i := by
      unfold shiftFails
      rw [if_pos (by simp only [List.length_cons]; omega)]
    have hih : processRelationships idMap bookId f (i + 1) (pre2 ++ rel :: post) =
        processRelationships idMap bookId
          (shiftFails f (i + (p :: pre2).length)) (i + 1) (pre2 ++ post) := by
      rw [hlen]
      apply ih rel post f (i + 1)
      rcases h with h | h
      · exact Or.inl h
      · exact Or.inr (by rw [← hlen]; exact h)
    rw [hshift_i, hih]

/-- C5.  A relationship candidate whose endpoint does not resolve through
the name-to-id map is skipped without raising and without creating a row,
and an individual store failure on one candidate is caught: in both cases
the loop output equals the output with that candidate deleted from the
batch, so every other candidate is still processed identically.  Moreover
the relationship loop and its failure oracle cannot touch or roll back the
entities created by the entity loop of the same POST. -/
theorem relationship_loop_isolation (idMap : String → Option String)
    (bookId : String) (pre : List RelCandidate) (rel : RelCandidate)
    (post : List RelCandidate) (f : Nat → Bool) (i : Nat)
    (h : ¬(truthyOptStr (idMap (toLowerCase rel.fromName)) = true ∧
        truthyOptStr (idMap (toLowerCase rel.toName)) = true) ∨
      f (i + pre.length) = true) :
    processRelationships idMap bookId f i (pre ++ rel :: post) =
      processRelationships idMap bookId (shiftFails f (i + pre.length)) i
        (pre ++ post) ∧
    ∀ (existing : List KnowledgeEntity) (ecands : List EntityCandidate)
      (rcands : List RelCandidate) (sessionId : String) (g : Nat → Bool),
      (extractionMerge existing ecands rcands bookId sessionId f).1 =
        (extractionMerge existing ecands rcands bookId sessionId g).1 := by
  constructor
  · exact processRelationships_remove idMap bookId pre rel post f i h
  · intro existing ecands rcands sessionId g
    rfl

/-- C5 witness: a batch with an unresolvable candidate (the name Bob is
absent from the map) followed by a resolvable one; deleting the
unresolvable candidate leaves the output unchanged. -/
theorem relationship_loop_isolation_witness :
    processRelationships (fun k => if k = "alice" then some "e7" else none)
        "b1" (fun _ => false) 0
        ([] ++ (RelCandidate.mk "Bob" "Alice" "knows" "d") ::
          [RelCandidate.mk "Alice" "Alice" "self" "d"]) =
      processRelationships (fun k => if k = "alice" then some "e7" else none)
        "b1" (shiftFails (fun _ => false) (0 + ([] : List RelCandidate).length))
        0 ([] ++ [RelCandidate.mk "Alice" "Alice" "self" "d"]) ∧
    ∀ (existing : List KnowledgeEntity) (ecands : List EntityCandidate)
      (rcands : List RelCandidate) (sessionId : String) (g : Nat → Bool),
      (extractionMerge existing ecands rcands "b1" sessionId
          (fun _ => false)).1 =
        (extractionMerge existing ecands rcands "b1" sessionId g).1 :=
  relationship_loop_isolation (fun k => if k = "alice" then some "e7" else none)
    "b1" [] (RelCandidate.mk "Bob" "Alice" "knows" "d")
    [RelCandidate.mk "Alice" "Alice" "self" "d"] (fun _ => false) 0
    (Or.inl (by decide))

/-- C10 witness: the unknown-type row evaluated concretely. -/
theorem calculatePriority_unknown_type_witness :
    unknownTypeItem.item_type ∉
      ["question", "contradiction", "thin_spot", "unexplored", "review", "idea"] ∧
    calculatePriority unknownTypeItem 7 true =
      unknownTypeItem.priority + ((7 / 3 : Nat) : Int) +
        (if true && truthyOptStr unknownTypeItem.source_entity_id then 2 else 0) :=
  ⟨by decide, calculatePriority_unknown_type unknownTypeItem 7 true (by decide)⟩
